import Mathlib

/-!
# StudyQuality — verification of the local data-storage and mock-API core

Shallow embedding of the storage module (`js/utils/storage.js`, bundled as
`src/unnamed/part_002`) and the mock API layer (`src/js/utils/api.js`) of the
StudyQuality repository, together with theorems settling the frozen claims
about that core.

Modelling conventions:
* JavaScript objects are association lists `Obj := List (String × JVal)` with
  unique-key maintenance through `oset`; object spread `{...a, ...b}` is
  `omerge a b`.
* The wall clock is an integer timeline (epoch milliseconds).  ISO-8601
  timestamp strings produced by `new Date().toISOString()` compare
  lexicographically in the same order as the instants they denote, so the
  stored `createdAt` / `updatedAt` / `lastActivity` values are embedded as
  `JVal.num t` on that timeline.  Calendar-dependent code (`setMonth`) is
  modelled with an explicit civil-date type.
* `localStorage` together with the JSON round-trip of `Storage.get`/`set` is
  modelled as an association list from (unprefixed) keys to decoded `JVal`s.
-/

namespace StudyQuality

/-- JSON-like values as decoded by `Storage.get` (`JSON.parse`). -/
inductive JVal where
  | null
  | bool (b : Bool)
  | num (n : Int)
  | str (s : String)
  | arr (xs : List JVal)
  | obj (fields : List (String × JVal))

/-- A JavaScript object: ordered fields with (maintained) unique keys. -/
abbrev Obj := List (String × JVal)

/-- Property read `o[key]`: `none` models JavaScript `undefined`. -/
def oget : Obj → String → Option JVal
  | [], _ => none
  | (k, v) :: rest, key => if k = key then some v else oget rest key

/-- Property write `o[key] = val`: overwrite in place, else append. -/
def oset : Obj → String → JVal → Obj
  | [], key, val => [(key, val)]
  | (k, v) :: rest, key, val =>
    if k = key then (k, val) :: rest else (k, v) :: oset rest key val

/-- Object spread `{...base, ...upd}`: fields of `upd` override `base`. -/
def omerge (base : Obj) (upd : Obj) : Obj :=
  upd.foldl (fun acc kv => oset acc kv.1 kv.2) base

theorem oget_oset_self (o : Obj) (k : String) (v : JVal) :
    oget (oset o k v) k = some v := by
  induction o with
  | nil => simp [oset, oget]
  | cons hd tl ih =>
    by_cases h : hd.1 = k
    · simp [oset, oget, h]
    · simp [oset, oget, h, ih]

theorem oget_oset_ne (o : Obj) (k k' : String) (v : JVal) (h : k ≠ k') :
    oget (oset o k v) k' = oget o k' := by
  induction o with
  | nil => simp [oset, oget, h]
  | cons hd tl ih =>
    obtain ⟨a, b⟩ := hd
    by_cases hh : a = k
    · subst hh
      simp [oset, oget, h]
    · simp only [oset, if_neg hh, oget]
      by_cases hk' : a = k'
      · simp [hk']
      · simp [hk', ih]

theorem omerge_nil (b : Obj) : omerge b [] = b := rfl

theorem omerge_cons (b : Obj) (k : String) (v : JVal) (u : Obj) :
    omerge b ((k, v) :: u) = omerge (oset b k v) u := rfl

/-- A key absent from the update survives a spread unchanged. -/
theorem oget_omerge_of_not_mem (b : Obj) (u : Obj) (k : String)
    (h : k ∉ u.map Prod.fst) :
    oget (omerge b u) k = oget b k := by
  induction u generalizing b with
  | nil => rfl
  | cons hd tl ih =>
    simp only [List.map_cons, List.mem_cons] at h
    push_neg at h
    rw [show hd = (hd.1, hd.2) from rfl, omerge_cons, ih _ h.2,
      oget_oset_ne _ _ _ _ (fun hh => h.1 hh.symm)]

/-- Membership after a property write comes from the write or the original. -/
theorem mem_oset (o : Obj) (k : String) (v : JVal) (p : String × JVal)
    (h : p ∈ oset o k v) : p = (k, v) ∨ p ∈ o := by
  induction o with
  | nil => simpa [oset] using h
  | cons hd tl ih =>
    obtain ⟨a, b⟩ := hd
    by_cases hh : a = k
    · simp only [oset, if_pos hh] at h
      rcases List.mem_cons.mp h with h | h
      · exact Or.inl (by rw [h, hh])
      · exact Or.inr (List.mem_cons_of_mem _ h)
    · simp only [oset, if_neg hh] at h
      rcases List.mem_cons.mp h with h | h
      · exact Or.inr (by simp [h])
      · rcases ih h with h2 | h2
        · exact Or.inl h2
        · exact Or.inr (List.mem_cons_of_mem _ h2)

/-- With unique update keys, a field supplied by the update wins the spread. -/
theorem oget_omerge_of_mem (b : Obj) (u : Obj) (k : String) (v : JVal)
    (hnd : (u.map Prod.fst).Nodup) (h : (k, v) ∈ u) :
    oget (omerge b u) k = some v := by
  induction u generalizing b with
  | nil => cases h
  | cons hd tl ih =>
    simp only [List.map_cons, List.nodup_cons] at hnd
    rcases List.mem_cons.mp h with h | h
    · have hk : hd.1 = k := by rw [← h]
      have hnotin : k ∉ tl.map Prod.fst := by
        rw [← hk]; exact hnd.1
      rw [show hd = (hd.1, hd.2) from rfl, omerge_cons,
        oget_omerge_of_not_mem _ _ _ hnotin, hk,
        show hd.2 = v from (congrArg Prod.snd h).symm, oget_oset_self]
    · rw [show hd = (hd.1, hd.2) from rfl, omerge_cons]
      exact ih _ hnd.2 h

/-! ## User repository (`UserStorage`, part_002 lines 157–359) -/

/-- One audit log entry built by `UserStorage.logUserAction`.  `entryId`
models `Date.now() + Math.random()` and `userAgent` models
`navigator.userAgent`; both are inputs of the model.  `Data.deepClone`
(helpers.js, bundled in `src/js/utils/api.js`) is a recursive structural
copy, which for a pure value is the value itself. -/
structure LogEntry where
  entryId : Int
  timestamp : Int
  action : String
  userId : Int
  data : Obj
  userAgent : String

/-- Ambient inputs of one storage mutation: the wall clock as epoch
milliseconds (`new Date()`; ISO-8601 strings are order-isomorphic to this
timeline), its date-only rendering `new Date().toISOString().split('T')[0]`,
the audit entry id and the client user agent. -/
structure Env where
  now : Int
  today : String
  entryId : Int
  userAgent : String

/-- The state a `UserStorage` instance acts on: the stored user collection
(`USER_DATA`), the stored audit log (`LOGS_DATA`) and the instance's
in-memory `nextId` counter (set from `getNextUserId()` in the constructor). -/
structure RepoState where
  users : List Obj
  logs : List LogEntry
  nextId : Int

/-- Numeric `id` field of a record; `none` when absent or non-numeric. -/
def getId (u : Obj) : Option Int :=
  match oget u "id" with
  | some (JVal.num n) => some n
  | _ => none

/-- The numeric id with a default, for `Math.max` over well-formed records. -/
def idOf (u : Obj) : Int := (getId u).getD 0

/-- `u.id === id` for a numeric `id`: a record with a missing or non-numeric
id never strictly equals a number. -/
def matchesId (id : Int) (u : Obj) : Bool :=
  match getId u with
  | some n => n == id
  | none => false

/-- String-valued field read: `""` when absent or non-string (only applied
where the source assumes a string). -/
def getStrField (u : Obj) (k : String) : String :=
  match oget u k with
  | some (JVal.str s) => s
  | _ => ""

/-- `UserStorage.getNextUserId`:
`users.length > 0 ? Math.max(...users.map(u => u.id)) + 1 : 1`. -/
def getNextUserId (users : List Obj) : Int :=
  match users with
  | [] => 1
  | u0 :: rest => (rest.map idOf).foldl max (idOf u0) + 1

/-- The `logEntry` literal of `UserStorage.logUserAction`. -/
def auditEntry (action : String) (userId : Int) (data : Obj) (env : Env) :
    LogEntry :=
  ⟨env.entryId, env.now, action, userId, data, env.userAgent⟩

/-- `UserStorage.logUserAction`: append the entry, then
`if (logs.length > 1000) logs.splice(0, logs.length - 1000)`. -/
def logUserAction (logs : List LogEntry) (action : String) (userId : Int)
    (data : Obj) (env : Env) : List LogEntry :=
  let logs' := logs ++ [auditEntry action userId data env]
  if logs'.length > 1000 then logs'.drop (logs'.length - 1000) else logs'

/-- JS `Array.prototype.findIndex`, with `-1` rendered as `none`. -/
def findIndex (p : Obj → Bool) : List Obj → Option Nat
  | [] => none
  | u :: rest => if p u then some 0 else (findIndex p rest).map (· + 1)

/-- `UserStorage.createUser`: the new record is the object literal
`{id: nextId++, ...userData, registeredDate, lastLogin: null, createdAt,
updatedAt}`, pushed onto the collection and audited `USER_CREATED`. -/
def createUser (st : RepoState) (userData : Obj) (env : Env) :
    Obj × RepoState :=
  let newUser :=
    omerge (omerge [("id", JVal.num st.nextId)] userData)
      [("registeredDate", JVal.str env.today), ("lastLogin", JVal.null),
       ("createdAt", JVal.num env.now), ("updatedAt", JVal.num env.now)]
  (newUser,
   ⟨st.users ++ [newUser],
    logUserAction st.logs "USER_CREATED" (idOf newUser) newUser env,
    st.nextId + 1⟩)

/-- `UserStorage.updateUser`: `findIndex` on `user.id === id`; when found,
the record becomes `{...users[ix], ...updates, updatedAt: now}`, is written
back in place and audited `USER_UPDATED`; otherwise `null` and no change. -/
def updateUser (st : RepoState) (id : Int) (updates : Obj) (env : Env) :
    Option Obj × RepoState :=
  match findIndex (matchesId id) st.users with
  | none => (none, st)
  | some ix =>
    let old := st.users.getD ix []
    let updatedUser := omerge (omerge old updates) [("updatedAt", JVal.num env.now)]
    (some updatedUser,
     ⟨st.users.set ix updatedUser,
      logUserAction st.logs "USER_UPDATED" id updatedUser env,
      st.nextId⟩)

/-- `UserStorage.deleteUser`: `findIndex`, `splice(ix, 1)`, audit
`USER_DELETED`; `false` and no change when the id is absent. -/
def deleteUser (st : RepoState) (id : Int) (env : Env) : Bool × RepoState :=
  match findIndex (matchesId id) st.users with
  | none => (false, st)
  | some ix =>
    let deletedUser := st.users.getD ix []
    (true,
     ⟨st.users.eraseIdx ix,
      logUserAction st.logs "USER_DELETED" id deletedUser env,
      st.nextId⟩)

/-- `UserStorage.deleteUsers`: per-id `deleteUser` with a success counter.
A non-numeric entry of `userIds` matches no record, so `deleteUser` returns
false and changes nothing. -/
def deleteUsers (st : RepoState) (ids : List JVal) (env : Env) :
    Nat × RepoState :=
  ids.foldl (fun acc v =>
    match v with
    | JVal.num n =>
      let r := deleteUser acc.2 n env
      (acc.1 + (if r.1 then 1 else 0), r.2)
    | _ => acc) (0, st)

/-- JS `String.prototype.toLowerCase`: character-wise lower-casing (the
emails and queries of this system are basic latin). -/
def toLowerStr (s : String) : String := ⟨s.data.map Char.toLower⟩

/-- `UserStorage.getUserByEmail`: first record whose email matches
case-insensitively. -/
def getUserByEmail (users : List Obj) (email : String) : Option Obj :=
  users.find? (fun u => toLowerStr (getStrField u "email") == toLowerStr email)

/-- JS truthiness of a decoded JSON value (`NaN` never arises from parsing
the integers this model stores). -/
def jTruthy : JVal → Bool
  | JVal.null => false
  | JVal.bool b => b
  | JVal.num n => !(n == 0)
  | JVal.str s => !s.isEmpty
  | JVal.arr _ => true
  | JVal.obj _ => true

/-- JS strict equality on decoded values: structural on primitives; arrays
and objects compare by reference, and two separately decoded values are
never the same reference. -/
def jStrictEq : JVal → JVal → Bool
  | JVal.null, JVal.null => true
  | JVal.bool a, JVal.bool b => a == b
  | JVal.num a, JVal.num b => a == b
  | JVal.str a, JVal.str b => a == b
  | _, _ => false

/-- Infix test on character lists (JS `String.prototype.includes`). -/
def isInfixC : List Char → List Char → Bool
  | pat, [] => pat.isEmpty
  | pat, c :: rest => pat.isPrefixOf (c :: rest) || isInfixC pat rest

/-- `s.includes(pat)`. -/
def containsStr (s pat : String) : Bool := isInfixC pat.data s.data

/-- `UserStorage.searchUsers`: case-insensitive substring query over name,
email and truthy notes, then exact-match filters applied when truthy. -/
def searchUsers (users0 : List Obj) (query : String) (filters : Obj) :
    List Obj :=
  let users :=
    if query.isEmpty then users0
    else
      users0.filter (fun u =>
        containsStr (toLowerStr (getStrField u "name")) (toLowerStr query) ||
        containsStr (toLowerStr (getStrField u "email")) (toLowerStr query) ||
        (match oget u "notes" with
         | some (JVal.str s) =>
           !s.isEmpty && containsStr (toLowerStr s) (toLowerStr query)
         | _ => false))
  filters.foldl (fun acc kv =>
    if jTruthy kv.2 then
      acc.filter (fun u =>
        match oget u kv.1 with
        | some v' => jStrictEq v' kv.2
        | none => false)
    else acc) users

/-! ## Civil dates for `getUserStats` (part_002 lines 306–322)

`recentRegistrations` compares `new Date(u.registeredDate)` (UTC midnight of
a `YYYY-MM-DD` string) against `monthAgo = new Date(); monthAgo.setMonth(
monthAgo.getMonth() - 1)`.  JS `Date` time values order exactly as the
normalized civil datetimes they denote, so the comparison is lexicographic
on (year, month, day, ms-of-day). -/

def isLeapYear (y : Int) : Bool :=
  y % 4 == 0 && (!(y % 100 == 0) || y % 400 == 0)

def daysInMonth (y : Int) (m : Int) : Int :=
  if m = 2 then (if isLeapYear y then 29 else 28)
  else if m = 4 ∨ m = 6 ∨ m = 9 ∨ m = 11 then 30
  else 31

/-- A normalized civil datetime: 1-based month and day, milliseconds into
the day. -/
structure DateTime where
  year : Int
  month : Int
  day : Int
  ms : Int

/-- `d.setMonth(d.getMonth() - 1)`: decrement the month (borrowing a year
below January) and let a day-of-month overflow spill into the following
month, exactly as JS `Date` normalizes (a single carry suffices for
day ≤ 31). -/
def monthAgo (d : DateTime) : DateTime :=
  let y := if d.month - 1 < 1 then d.year - 1 else d.year
  let m := if d.month - 1 < 1 then d.month + 11 else d.month - 1
  let dim := daysInMonth y m
  if d.day > dim then
    let y2 := if m + 1 > 12 then y + 1 else y
    let m2 := if m + 1 > 12 then 1 else m + 1
    ⟨y2, m2, d.day - dim, d.ms⟩
  else ⟨y, m, d.day, d.ms⟩

/-- Strict order of JS `Date` time values, as lexicographic order of
normalized civil datetimes. -/
def dtLt (a b : DateTime) : Bool :=
  if a.year < b.year then true
  else if b.year < a.year then false
  else if a.month < b.month then true
  else if b.month < a.month then false
  else if a.day < b.day then true
  else if b.day < a.day then false
  else decide (a.ms < b.ms)

/-- Split a character list at a separator (JS `split`). -/
def splitOnChar (sep : Char) : List Char → List (List Char)
  | [] => [[]]
  | c :: cs =>
    match splitOnChar sep cs with
    | [] => [[]]
    | l :: ls => if c = sep then [] :: l :: ls else (c :: l) :: ls

/-- The numeric value of a digit run (JS `parseInt` on plain digits). -/
def digitsVal (ds : List Char) : Nat :=
  ds.foldl (fun acc c => acc * 10 + (c.toNat - '0'.toNat)) 0

/-- An all-digit, non-empty run. -/
def digitsOnly? (cs : List Char) : Option Nat :=
  if !cs.isEmpty && cs.all Char.isDigit then some (digitsVal cs) else none

/-- `new Date(s)` for a `YYYY-MM-DD` string: UTC midnight of that date.
`none` models an Invalid Date (malformed string or out-of-range month/day —
ISO parsing validates both), whose comparisons are all false. -/
def parseRegDate (s : String) : Option DateTime :=
  match splitOnChar '-' s.data with
  | [ys, mos, ds] =>
    match digitsOnly? ys, digitsOnly? mos, digitsOnly? ds with
    | some y, some mo, some d =>
      if 1 ≤ (mo : Int) ∧ (mo : Int) ≤ 12 ∧ 1 ≤ (d : Int) ∧
          (d : Int) ≤ daysInMonth (y : Int) (mo : Int) then
        some ⟨(y : Int), (mo : Int), (d : Int), 0⟩
      else none
    | _, _, _ => none
  | _ => none

structure UserStats where
  total : Nat
  active : Nat
  inactive : Nat
  admins : Nat
  regularUsers : Nat
  recentRegistrations : Nat

/-- `UserStorage.getUserStats`, with the call instant `now` as a civil
datetime. -/
def getUserStats (users : List Obj) (now : DateTime) : UserStats where
  total := users.length
  active := (users.filter (fun u => getStrField u "status" == "active")).length
  inactive := (users.filter (fun u => getStrField u "status" == "inactive")).length
  admins := (users.filter (fun u => getStrField u "role" == "admin")).length
  regularUsers := (users.filter (fun u => getStrField u "role" == "user")).length
  recentRegistrations := (users.filter (fun u =>
    match parseRegDate (getStrField u "registeredDate") with
    | some rd => dtLt (monthAgo now) rd
    | none => false)).length

/-! ## Session store (`SessionStorage`, part_002 lines 364–451) -/

/-- The `CURRENT_USER` session record. -/
structure SessionRec where
  user : Obj
  loginTime : Int
  lastActivity : Int
  sessionId : String

/-- The lightweight `SESSION_DATA` flag record. -/
structure SessionFlag where
  isLoggedIn : Bool
  sessionStart : Int
  sessionId : String

/-- The full stored state the session-aware API layer acts on. -/
structure SysState where
  repo : RepoState
  session : Option SessionRec
  flag : Option SessionFlag

/-- `SessionStorage.setCurrentUser`: store the session record and the flag
record, then write `lastLogin: now` onto the user row through a fresh
`UserStorage` (a non-numeric `user.id` matches no stored record, so that
update is a no-op). -/
def setCurrentUser (st : SysState) (user : Obj) (env : Env) (sid : String) :
    SysState :=
  let repo' :=
    match getId user with
    | some i => (updateUser st.repo i [("lastLogin", JVal.num env.now)] env).2
    | none => st.repo
  { repo := repo'
    session := some ⟨user, env.now, env.now, sid⟩
    flag := some ⟨true, env.now, sid⟩ }

/-- `SessionStorage.isLoggedIn`: `sessionData && sessionData.isLoggedIn`. -/
def isLoggedIn (st : SysState) : Bool :=
  match st.flag with
  | some f => f.isLoggedIn
  | none => false

/-- `SessionStorage.updateActivity`. -/
def updateActivity (st : SysState) (now : Int) : SysState :=
  match st.session with
  | some s => { st with session := some { s with lastActivity := now } }
  | none => st

/-- `SessionStorage.logout`. -/
def logout (st : SysState) : SysState :=
  { st with session := none, flag := none }

/-- `SessionStorage.isSessionExpired`: true when no session record exists,
else `(now - lastActivity) / (1000 * 60) > timeoutMinutes` with real
division. -/
def isSessionExpired (st : SysState) (now : Int) (timeoutMinutes : Rat) :
    Bool :=
  match st.session with
  | none => true
  | some s =>
    decide (((now - s.lastActivity : Int) : Rat) / (1000 * 60) > timeoutMinutes)

/-! ## Mock API (`src/js/utils/api.js`) -/

/-- The typed error thrown by the mock API (`class APIError`). -/
structure APIError where
  message : String
  status : Int

/-- The success envelope `{success, message?, data?}`. -/
structure Response where
  success : Bool
  message : Option String
  data : Option JVal

/-- The user collection as a JSON value. -/
def encodeUsers (users : List Obj) : JVal :=
  JVal.arr (users.map JVal.obj)

/-- Field read rendered into an envelope: an absent property serializes away;
`null` stands in for `undefined` here (no claim inspects these slots). -/
def ogetJ (o : Obj) (k : String) : JVal :=
  (oget o k).getD JVal.null

/-- The `MESSAGES` catalogue of constants.js (bundled at the end of
`src/js/utils/api.js`): `MESSAGES.ERROR.USER_EXISTS`. -/
def MSG_USER_EXISTS : String := "El usuario ya existe"

/-- `MESSAGES.SUCCESS.USER_CREATED`. -/
def MSG_USER_CREATED : String := "Usuario creado exitosamente"

/-- `MESSAGES.SUCCESS.USER_UPDATED`. -/
def MSG_USER_UPDATED : String := "Usuario actualizado exitosamente"

/-- `MESSAGES.SUCCESS.USER_DELETED`. -/
def MSG_USER_DELETED : String := "Usuario eliminado exitosamente"

/-- `MESSAGES.ERROR.USER_NOT_FOUND`. -/
def MSG_USER_NOT_FOUND : String := "Usuario no encontrado"

/-- `MESSAGES.SUCCESS.LOGIN`. -/
def MSG_LOGIN : String := "Inicio de sesión exitoso"

/-- `MESSAGES.ERROR.LOGIN_FAILED`. -/
def MSG_LOGIN_FAILED : String := "Credenciales incorrectas"

/-- `MESSAGES.SUCCESS.LOGOUT`. -/
def MSG_LOGOUT : String := "Sesión cerrada correctamente"

/-- `MESSAGES.SUCCESS.DATA_EXPORTED`. -/
def MSG_DATA_EXPORTED : String := "Datos exportados correctamente"

/-- The `API_ENDPOINTS` constants of constants.js (bundled at the end of
`src/js/utils/api.js`): `API_ENDPOINTS.USERS.LIST`. -/
def EP_USERS_LIST : String := "/api/users"

/-- `API_ENDPOINTS.USERS.CREATE`. -/
def EP_USERS_CREATE : String := "/api/users"

/-- `API_ENDPOINTS.USERS.BULK`. -/
def EP_USERS_BULK : String := "/api/users/bulk"

/-- `API_ENDPOINTS.REPORTS.GENERATE`. -/
def EP_REPORTS_GENERATE : String := "/api/reports/generate"

/-- `API_ENDPOINTS.REPORTS.EXPORT`. -/
def EP_REPORTS_EXPORT : String := "/api/reports/export"

/-- `API_ENDPOINTS.REPORTS.LIST`. -/
def EP_REPORTS_LIST : String := "/api/reports"

/-- `API_ENDPOINTS.METRICS.SYSTEM`. -/
def EP_METRICS_SYSTEM : String := "/api/metrics/system"

/-- `API_ENDPOINTS.METRICS.USERS`. -/
def EP_METRICS_USERS : String := "/api/metrics/users"

/-- `API_ENDPOINTS.METRICS.PERFORMANCE`. -/
def EP_METRICS_PERFORMANCE : String := "/api/metrics/performance"

/-- `parseInt` of the first `/<digits>` segment ending at `/` or the end of
the endpoint (regex `\/(\d+)(?:\/|$)` with `match`). -/
def extractIdAux : List Char → Option Nat
  | [] => none
  | c :: rest =>
    if c = '/' then
      let digits := rest.takeWhile Char.isDigit
      if digits.isEmpty then extractIdAux rest
      else
        match rest.drop digits.length with
        | [] => some (digitsVal digits)
        | c2 :: _ => if c2 = '/' then some (digitsVal digits) else extractIdAux rest
    else extractIdAux rest

/-- `API.extractIdFromEndpoint`. -/
def extractIdFromEndpoint (endpoint : String) : Option Int :=
  (extractIdAux endpoint.data).map (fun n => (n : Int))

/-- `API.login`: the demo pair always succeeds; otherwise any stored active
user found by email succeeds with no password check; else 401.  `sid` and
`tok` model the generated session id and `'…_token_' + Date.now()`. -/
def login (st : SysState) (credentials : Obj) (env : Env) (sid tok : String) :
    SysState × Except APIError Response :=
  let email := getStrField credentials "email"
  let password := getStrField credentials "password"
  if email == "admin@demo.com" && password == "demo123" then
    let demoUser : Obj :=
      [("id", JVal.num 0), ("name", JVal.str "Administrador Demo"),
       ("email", JVal.str email), ("role", JVal.str "admin"),
       ("status", JVal.str "active")]
    (setCurrentUser st demoUser env sid,
     Except.ok ⟨true, some MSG_LOGIN,
       some (JVal.obj [("user", JVal.obj demoUser), ("token", JVal.str tok),
         ("expiresIn", JVal.num (30 * 60))])⟩)
  else
    match getUserByEmail st.repo.users email with
    | some user =>
      if getStrField user "status" == "active" then
        (setCurrentUser st user env sid,
         Except.ok ⟨true, some MSG_LOGIN,
           some (JVal.obj [("user", JVal.obj user), ("token", JVal.str tok),
             ("expiresIn", JVal.num (30 * 60))])⟩)
      else (st, Except.error ⟨MSG_LOGIN_FAILED, 401⟩)
    | none => (st, Except.error ⟨MSG_LOGIN_FAILED, 401⟩)

/-- `API.logout`. -/
def apiLogout (st : SysState) : SysState × Except APIError Response :=
  (logout st, Except.ok ⟨true, some MSG_LOGOUT, none⟩)

/-- `API.register`: 409 when the email already exists (case-insensitive),
else `createUser({...userData, status: 'active'})` and a success envelope.
The handler itself performs no session operation. -/
def register (st : SysState) (userData : Obj) (env : Env) :
    SysState × Except APIError Response :=
  let email := getStrField userData "email"
  match getUserByEmail st.repo.users email with
  | some _ => (st, Except.error ⟨MSG_USER_EXISTS, 409⟩)
  | none =>
    let r := createUser st.repo (omerge userData [("status", JVal.str "active")]) env
    ({ st with repo := r.2 },
     Except.ok ⟨true, some MSG_USER_CREATED,
       some (JVal.obj [("user", JVal.obj r.1)])⟩)

/-- `API.getUsers`. -/
def apiGetUsers (st : SysState) : SysState × Except APIError Response :=
  (st, Except.ok ⟨true, none,
    some (JVal.obj [("users", encodeUsers st.repo.users),
      ("total", JVal.num st.repo.users.length),
      ("page", JVal.num 1),
      ("pageSize", JVal.num st.repo.users.length)])⟩)

/-- `API.createUser`: 409 on duplicate email, else repository create. -/
def apiCreateUser (st : SysState) (userData : Obj) (env : Env) :
    SysState × Except APIError Response :=
  let email := getStrField userData "email"
  match getUserByEmail st.repo.users email with
  | some _ => (st, Except.error ⟨MSG_USER_EXISTS, 409⟩)
  | none =>
    let r := createUser st.repo userData env
    ({ st with repo := r.2 },
     Except.ok ⟨true, some MSG_USER_CREATED,
       some (JVal.obj [("user", JVal.obj r.1)])⟩)

/-- `API.updateUser` with the id extracted from the endpoint
(`parseInt(null)` is `NaN` and matches no record). -/
def apiUpdateUser (st : SysState) (id : Option Int) (updates : Obj)
    (env : Env) : SysState × Except APIError Response :=
  match id with
  | none => (st, Except.error ⟨MSG_USER_NOT_FOUND, 404⟩)
  | some i =>
    match updateUser st.repo i updates env with
    | (none, _) => (st, Except.error ⟨MSG_USER_NOT_FOUND, 404⟩)
    | (some u, repo') =>
      ({ st with repo := repo' },
       Except.ok ⟨true, some MSG_USER_UPDATED,
         some (JVal.obj [("user", JVal.obj u)])⟩)

/-- `API.deleteUser`. -/
def apiDeleteUser (st : SysState) (id : Option Int) (env : Env) :
    SysState × Except APIError Response :=
  match id with
  | none => (st, Except.error ⟨MSG_USER_NOT_FOUND, 404⟩)
  | some i =>
    match deleteUser st.repo i env with
    | (false, _) => (st, Except.error ⟨MSG_USER_NOT_FOUND, 404⟩)
    | (true, repo') =>
      ({ st with repo := repo' },
       Except.ok ⟨true, some MSG_USER_DELETED, none⟩)

/-- `API.bulkUserOperation`: delete / activate / deactivate applied per id
with a success counter; any other operation tag is a 400 error.  Callers
always supply `userIds` as an array. -/
def bulkUserOperation (st : SysState) (data : Obj) (env : Env) :
    SysState × Except APIError Response :=
  let ids : List JVal :=
    match oget data "userIds" with
    | some (JVal.arr xs) => xs
    | _ => []
  let op := getStrField data "operation"
  if op == "delete" then
    let r := deleteUsers st.repo ids env
    ({ st with repo := r.2 },
     Except.ok ⟨true, some (toString r.1 ++ " usuarios eliminados"),
       some (JVal.obj [("deletedCount", JVal.num (r.1 : Int))])⟩)
  else if op == "activate" then
    let r := ids.foldl (fun (acc : Nat × RepoState) v =>
      match v with
      | JVal.num n =>
        match updateUser acc.2 n [("status", JVal.str "active")] env with
        | (some _, repo') => (acc.1 + 1, repo')
        | (none, repo') => (acc.1, repo')
      | _ => acc) (0, st.repo)
    ({ st with repo := r.2 },
     Except.ok ⟨true, some (toString r.1 ++ " usuarios activados"),
       some (JVal.obj [("activatedCount", JVal.num (r.1 : Int))])⟩)
  else if op == "deactivate" then
    let r := ids.foldl (fun (acc : Nat × RepoState) v =>
      match v with
      | JVal.num n =>
        match updateUser acc.2 n [("status", JVal.str "inactive")] env with
        | (some _, repo') => (acc.1 + 1, repo')
        | (none, repo') => (acc.1, repo')
      | _ => acc) (0, st.repo)
    ({ st with repo := r.2 },
     Except.ok ⟨true, some (toString r.1 ++ " usuarios desactivados"),
       some (JVal.obj [("deactivatedCount", JVal.num (r.1 : Int))])⟩)
  else (st, Except.error ⟨"Operación no válida", 400⟩)

/-- `API.handleUsersRequest`: the authentication guard comes first; then the
method/endpoint dispatch of the source, else a 404. -/
def handleUsersRequest (st : SysState) (method endpoint : String) (data : Obj)
    (env : Env) : SysState × Except APIError Response :=
  if !isLoggedIn st then (st, Except.error ⟨"Unauthorized", 401⟩)
  else if method == "GET" && endpoint == EP_USERS_LIST then apiGetUsers st
  else if method == "POST" && endpoint == EP_USERS_CREATE then
    apiCreateUser st data env
  else if method == "PUT" && containsStr endpoint "/users/" then
    apiUpdateUser st (extractIdFromEndpoint endpoint) data env
  else if method == "DELETE" && containsStr endpoint "/users/" then
    apiDeleteUser st (extractIdFromEndpoint endpoint) env
  else if method == "POST" && endpoint == EP_USERS_BULK then
    bulkUserOperation st data env
  else (st, Except.error ⟨"Users endpoint not found", 404⟩)

/-- The sampled values of the `Math.random()` expressions inside the report
and metrics endpoints, as model inputs. -/
structure RandEnv where
  reportId : Int
  reportSize : Int
  uptime : Int
  responseTime : Int
  memoryUsage : Int
  cpuUsage : Int
  growthRate : Int
  retention : Int
  satisfaction : Int
  loadTime : Int
  renderTime : Int
  networkTime : Int
  cacheHitRate : Int
  errorRate : Int

/-- `API.generateReport`: a synthetic report descriptor. -/
def generateReport (st : SysState) (data : Obj) (env : Env) (r : RandEnv) :
    SysState × Except APIError Response :=
  (st, Except.ok ⟨true, some MSG_DATA_EXPORTED,
    some (JVal.obj [("report", JVal.obj
      [("id", JVal.num r.reportId), ("type", ogetJ data "type"),
       ("format", ogetJ data "format"), ("filters", ogetJ data "filters"),
       ("generatedAt", JVal.num env.now), ("size", JVal.num r.reportSize)])])⟩)

/-- `API.exportData` (the `/reports/export` handler): the user collection,
filtered through `searchUsers('', filters)` when `filters` is truthy. -/
def apiReportExport (st : SysState) (data : Obj) (env : Env) :
    SysState × Except APIError Response :=
  let users :=
    match oget data "filters" with
    | some (JVal.obj o) => searchUsers st.repo.users "" o
    | _ => st.repo.users
  (st, Except.ok ⟨true, some MSG_DATA_EXPORTED,
    some (JVal.obj [("format", ogetJ data "format"),
      ("recordCount", JVal.num users.length),
      ("generatedAt", JVal.num env.now),
      ("data", encodeUsers users)])⟩)

/-- `API.getReports`: the hard-coded simulated report list. -/
def getReports (st : SysState) : SysState × Except APIError Response :=
  (st, Except.ok ⟨true, none, some (JVal.obj [("reports", JVal.arr
    [JVal.obj [("id", JVal.num 1), ("name", JVal.str "Reporte de Usuarios"),
       ("type", JVal.str "users"), ("format", JVal.str "pdf"),
       ("generatedAt", JVal.str "2024-03-15T10:30:00Z"),
       ("size", JVal.str "245 KB")],
     JVal.obj [("id", JVal.num 2), ("name", JVal.str "Reporte de Actividad"),
       ("type", JVal.str "activity"), ("format", JVal.str "csv"),
       ("generatedAt", JVal.str "2024-03-14T15:45:00Z"),
       ("size", JVal.str "156 KB")]])])⟩)

/-- `API.handleReportsRequest`: authentication guard first, then dispatch. -/
def handleReportsRequest (st : SysState) (method endpoint : String)
    (data : Obj) (env : Env) (r : RandEnv) :
    SysState × Except APIError Response :=
  if !isLoggedIn st then (st, Except.error ⟨"Unauthorized", 401⟩)
  else if method == "POST" && endpoint == EP_REPORTS_GENERATE then
    generateReport st data env r
  else if method == "POST" && endpoint == EP_REPORTS_EXPORT then
    apiReportExport st data env
  else if method == "GET" && endpoint == EP_REPORTS_LIST then getReports st
  else (st, Except.error ⟨"Reports endpoint not found", 404⟩)

/-- `API.getSystemMetrics`. -/
def getSystemMetrics (st : SysState) (nowDT : DateTime) (r : RandEnv) :
    SysState × Except APIError Response :=
  let stats := getUserStats st.repo.users nowDT
  (st, Except.ok ⟨true, none, some (JVal.obj
    [("uptime", JVal.num r.uptime), ("responseTime", JVal.num r.responseTime),
     ("activeUsers", JVal.num (stats.active : Int)),
     ("totalUsers", JVal.num (stats.total : Int)),
     ("memoryUsage", JVal.num r.memoryUsage),
     ("cpuUsage", JVal.num r.cpuUsage)])⟩)

/-- `API.getUserMetrics`. -/
def getUserMetrics (st : SysState) (nowDT : DateTime) (r : RandEnv) :
    SysState × Except APIError Response :=
  let stats := getUserStats st.repo.users nowDT
  (st, Except.ok ⟨true, none, some (JVal.obj
    [("total", JVal.num (stats.total : Int)),
     ("active", JVal.num (stats.active : Int)),
     ("inactive", JVal.num (stats.inactive : Int)),
     ("admins", JVal.num (stats.admins : Int)),
     ("regularUsers", JVal.num (stats.regularUsers : Int)),
     ("recentRegistrations", JVal.num (stats.recentRegistrations : Int)),
     ("growthRate", JVal.num r.growthRate),
     ("retention", JVal.num r.retention),
     ("satisfaction", JVal.num r.satisfaction)])⟩)

/-- `API.getPerformanceMetrics`. -/
def getPerformanceMetrics (st : SysState) (r : RandEnv) :
    SysState × Except APIError Response :=
  (st, Except.ok ⟨true, none, some (JVal.obj
    [("loadTime", JVal.num r.loadTime), ("renderTime", JVal.num r.renderTime),
     ("networkTime", JVal.num r.networkTime),
     ("cacheHitRate", JVal.num r.cacheHitRate),
     ("errorRate", JVal.num r.errorRate)])⟩)

/-- `API.handleMetricsRequest`: authentication guard first, then dispatch on
the endpoint alone. -/
def handleMetricsRequest (st : SysState) (endpoint : String)
    (nowDT : DateTime) (r : RandEnv) : SysState × Except APIError Response :=
  if !isLoggedIn st then (st, Except.error ⟨"Unauthorized", 401⟩)
  else if endpoint == EP_METRICS_SYSTEM then getSystemMetrics st nowDT r
  else if endpoint == EP_METRICS_USERS then getUserMetrics st nowDT r
  else if endpoint == EP_METRICS_PERFORMANCE then getPerformanceMetrics st r
  else (st, Except.error ⟨"Metrics endpoint not found", 404⟩)

/-! ## Backup store (`BackupStorage`, part_002 lines 456–569)

`BackupStorage` works against the whole namespaced key set, so here the
store is modelled generically: an association list from (unprefixed) keys to
their decoded JSON values, reusing `oget`/`oset` — `Storage.get` returns the
decoded value or the default and `Storage.set` overwrites the key. -/

/-- `Object.values(STORAGE_KEYS)` of constants.js (bundled at the end of
`src/js/utils/api.js`), in declaration order.  `Storage.get`/`set` prepend
the namespace prefix transparently, so these values are the keys of the
modelled store. -/
def STORAGE_KEYS : List String :=
  ["studyquality_current_user", "studyquality_users",
   "studyquality_settings", "studyquality_backup", "studyquality_session",
   "studyquality_metrics", "studyquality_logs"]

/-- `STORAGE_KEYS.BACKUP_DATA`, the reserved backup key. -/
def BACKUP_KEY : String := "studyquality_backup"

/-- `STORAGE_KEYS.USER_DATA`. -/
def USER_DATA_KEY : String := "studyquality_users"

/-- The backup document `{version, timestamp, data}`. -/
structure BackupDoc where
  version : String
  timestamp : String
  data : Obj

/-- The backup document as the JSON value `Storage.set` persists. -/
def encodeBackup (doc : BackupDoc) : JVal :=
  JVal.obj [("version", JVal.str doc.version),
    ("timestamp", JVal.str doc.timestamp), ("data", JVal.obj doc.data)]

/-- `BackupStorage.createBackup`: snapshot every storage key whose decoded
value is non-null into the document's data map, store the document under the
reserved key, and return it. -/
def createBackup (st : Obj) (ts : String) : BackupDoc × Obj :=
  let data := STORAGE_KEYS.foldl (fun acc k =>
    match oget st k with
    | some v => oset acc k v
    | none => acc) []
  let doc : BackupDoc := ⟨"1.0.0", ts, data⟩
  (doc, oset st BACKUP_KEY (encodeBackup doc))

/-- `BackupStorage.restoreBackup` applied to an explicit document: every key
of the data map except the reserved backup key is written back.  (The
`!backup || !backup.data` guard cannot fire here: a document always carries
its data map, and an empty object is truthy.) -/
def restoreBackup (st : Obj) (doc : BackupDoc) : Bool × Obj :=
  (true,
   doc.data.foldl (fun acc kv =>
     if kv.1 = BACKUP_KEY then acc else oset acc kv.1 kv.2) st)

/-! ## CSV export (`BackupStorage.convertToCSV` / `exportData`) -/

/-- JS `Array.prototype.join`. -/
def joinSep (sep : String) : List String → String
  | [] => ""
  | [x] => x
  | x :: y :: xs => x ++ sep ++ joinSep sep (y :: xs)

mutual

/-- JS `String(value)` for a decoded JSON value. -/
def jsStr : JVal → String
  | JVal.null => "null"
  | JVal.bool b => if b then "true" else "false"
  | JVal.num n => toString n
  | JVal.str s => s
  | JVal.arr xs => joinSep "," (jsStrList xs)
  | JVal.obj _ => "[object Object]"

/-- Array elements stringify with `null` rendered empty (JS `Array.join`). -/
def jsStrList : List JVal → List String
  | [] => []
  | x :: xs =>
    (match x with
     | JVal.null => ""
     | v => jsStr v) :: jsStrList xs

end

/-- JS `String(o[header])`: a missing property is `undefined`. -/
def jsStrProp : Option JVal → String
  | some v => jsStr v
  | none => "undefined"

/-- `value.replace(/"/g, '""')`: double every embedded double quote. -/
def escQuoteC : List Char → List Char
  | [] => []
  | c :: cs => if c = '"' then '"' :: '"' :: escQuoteC cs else c :: escQuoteC cs

def escQuote (s : String) : String := ⟨escQuoteC s.data⟩

/-- One CSV cell: `"${String(value).replace(/"/g, '""')}"`. -/
def csvCell (u : Obj) (h : String) : String :=
  "\"" ++ escQuote (jsStrProp (oget u h)) ++ "\""

/-- `BackupStorage.convertToCSV`: empty collection renders as `''`; else the
header row is `Object.keys(users[0])` joined by commas, each data row maps
the headers through the quoted escaped cell, and header and rows are joined
by newlines. -/
def convertToCSV (users : List Obj) : String :=
  match users with
  | [] => ""
  | u0 :: _ =>
    let headers := u0.map Prod.fst
    let csvHeaders := joinSep "," headers
    let csvRows := users.map (fun u => joinSep "," (headers.map (csvCell u)))
    joinSep "\n" (csvHeaders :: csvRows)

/-- `backup.data[USER_DATA] || []` consumed by `convertToCSV`: the stored
user collection is an array of records; any other shape renders empty. -/
def decodeUserArr : Option JVal → List Obj
  | some (JVal.arr xs) => xs.map (fun j =>
      match j with
      | JVal.obj o => o
      | _ => [])
  | _ => []

/-- `BackupStorage.exportData` for the `'csv'` format: take the backup
snapshot (which leaves the user collection untouched) and render only
`backup.data[USER_DATA] || []` as CSV.  The `'json'` branch (pretty-printed
`JSON.stringify` of the document) is outside every claim. -/
def exportDataCsv (st : Obj) (ts : String) : String :=
  let r := createBackup st ts
  convertToCSV (decodeUserArr (oget r.1.data USER_DATA_KEY))

/-! ## Sample inputs used by witnesses -/

/-- A concrete mutation environment. -/
def env0 : Env := ⟨1700000000000, "2024-01-01", 17, "agent"⟩

/-- A concrete call instant: 2024-03-30, 12:00:00.000 UTC. -/
def dt0 : DateTime := ⟨2024, 3, 30, 43200000⟩

/-- Concrete sampled values for the randomized endpoints. -/
def rand0 : RandEnv := ⟨1, 2, 3, 4, 5, 6, 7, 8, 9, 10, 11, 12, 13, 14⟩

/-- A concrete logged-out state. -/
def stOut : SysState := ⟨⟨[], [], 1⟩, none, none⟩

/-! ## Claim theorems -/

/-- C4: `isSessionExpired(timeoutMinutes)` returns true when no session
record exists, and with a session record it returns true exactly when the
elapsed minutes since `lastActivity` strictly exceed `timeoutMinutes`;
elapsed time exactly equal to the timeout is not expired. -/
theorem isSessionExpired_spec (st : SysState) (now : Int) (timeout : Rat) :
    (st.session = none → isSessionExpired st now timeout = true) ∧
    (∀ s, st.session = some s →
      (isSessionExpired st now timeout = true ↔
        ((now : Rat) - (s.lastActivity : Rat)) / (1000 * 60) > timeout)) ∧
    (∀ s, st.session = some s →
      ((now : Rat) - (s.lastActivity : Rat)) / (1000 * 60) = timeout →
      isSessionExpired st now timeout = false) := by
  refine ⟨fun h => ?_, fun s h => ?_, fun s h heq => ?_⟩
  · simp [isSessionExpired, h]
  · simp only [isSessionExpired, h]
    rw [decide_eq_true_iff]
    push_cast
    exact Iff.rfl
  · simp only [isSessionExpired, h]
    rw [decide_eq_false_iff_not]
    push_cast
    rw [heq]
    exact lt_irrefl timeout

/-- Witness for C4: a session whose last activity lies exactly 30 minutes in
the past is not yet expired with the default 30-minute timeout, and the
empty session store is always expired. -/
theorem isSessionExpired_spec_witness :
    isSessionExpired ⟨⟨[], [], 1⟩, some ⟨[], 0, 0, "sid"⟩, none⟩ 1800000 30
      = false ∧
    isSessionExpired stOut 5 1 = true :=
  ⟨(isSessionExpired_spec ⟨⟨[], [], 1⟩, some ⟨[], 0, 0, "sid"⟩, none⟩
      1800000 30).2.2 ⟨[], 0, 0, "sid"⟩ rfl (by norm_num),
   (isSessionExpired_spec stOut 5 1).1 rfl⟩

/-- C9: while `SessionStore.isLoggedIn()` is false, every users, reports and
metrics request fails with the 401 `Unauthorized` API error and returns the
state unchanged — no repository operation is performed. -/
theorem unauthorized_guard (st : SysState) (method endpoint : String)
    (data : Obj) (env : Env) (nowDT : DateTime) (r : RandEnv)
    (h : isLoggedIn st = false) :
    handleUsersRequest st method endpoint data env =
      (st, Except.error ⟨"Unauthorized", 401⟩) ∧
    handleReportsRequest st method endpoint data env r =
      (st, Except.error ⟨"Unauthorized", 401⟩) ∧
    handleMetricsRequest st endpoint nowDT r =
      (st, Except.error ⟨"Unauthorized", 401⟩) := by
  unfold handleUsersRequest handleReportsRequest handleMetricsRequest
  simp [h]

/-- Witness for C9: concrete logged-out state, `GET /api/users`. -/
theorem unauthorized_guard_witness :
    isLoggedIn stOut = false ∧
    handleUsersRequest stOut "GET" "/api/users" [] env0 =
      (stOut, Except.error ⟨"Unauthorized", 401⟩) :=
  ⟨rfl,
   (unauthorized_guard stOut "GET" "/api/users" [] env0 dt0 rand0 rfl).1⟩

/-- C7: every audit append keeps the stored log bounded by 1000 entries,
trimming only the oldest on overflow: the result is the suffix of
`previous ++ [new entry]` holding the most recent `min 1000` entries, the
just-appended entry is always last, kept entries are unmodified (being a
suffix of the untrimmed log), and the three mutations `createUser`,
`updateUser`, `deleteUser` produce their logs exactly through this append. -/
theorem auditLog_bounded (logs : List LogEntry) (action : String) (uid : Int)
    (data : Obj) (env : Env) :
    (logUserAction logs action uid data env).length ≤ 1000 ∧
    logUserAction logs action uid data env =
      (logs ++ [auditEntry action uid data env]).drop (logs.length + 1 - 1000) ∧
    (logUserAction logs action uid data env).getLast? =
      some (auditEntry action uid data env) ∧
    List.IsSuffix (logUserAction logs action uid data env)
      (logs ++ [auditEntry action uid data env]) ∧
    (logs.length + 1 ≤ 1000 →
      logUserAction logs action uid data env =
        logs ++ [auditEntry action uid data env]) ∧
    (∀ st userData, ((createUser st userData env).2).logs =
      logUserAction st.logs "USER_CREATED"
        (idOf (createUser st userData env).1) (createUser st userData env).1
        env) ∧
    (∀ st id updates u' repo', updateUser st id updates env = (some u', repo') →
      repo'.logs = logUserAction st.logs "USER_UPDATED" id u' env) ∧
    (∀ st id repo', deleteUser st id env = (true, repo') →
      ∃ d, repo'.logs = logUserAction st.logs "USER_DELETED" id d env) := by
  have hlen : (logs ++ [auditEntry action uid data env]).length
      = logs.length + 1 := by simp
  refine ⟨?_, ?_, ?_, ?_, ?_, ?_, ?_, ?_⟩
  · unfold logUserAction
    by_cases h : (logs ++ [auditEntry action uid data env]).length > 1000
    · rw [if_pos h, List.length_drop]
      omega
    · rw [if_neg h]
      rw [hlen] at h
      omega
  · unfold logUserAction
    by_cases h : (logs ++ [auditEntry action uid data env]).length > 1000
    · rw [if_pos h, hlen]
    · rw [if_neg h]
      rw [hlen] at h
      have h0 : logs.length + 1 - 1000 = 0 := by omega
      rw [h0, List.drop_zero]
  · unfold logUserAction
    by_cases h : (logs ++ [auditEntry action uid data env]).length > 1000
    · rw [if_pos h, hlen,
        List.drop_append_of_le_length (by omega), List.getLast?_concat]
    · rw [if_neg h]
      exact List.getLast?_concat _
  · unfold logUserAction
    by_cases h : (logs ++ [auditEntry action uid data env]).length > 1000
    · rw [if_pos h]
      exact List.drop_suffix _ _
    · rw [if_neg h]
  · intro hle
    unfold logUserAction
    rw [if_neg (by rw [hlen]; omega)]
  · intro st userData
    rfl
  · intro st id updates u' repo' h
    unfold updateUser at h
    cases hidx : findIndex (matchesId id) st.users with
    | none => rw [hidx] at h; cases h
    | some ix =>
      rw [hidx] at h
      simp only [Prod.mk.injEq, Option.some.injEq] at h
      obtain ⟨hu, hrepo⟩ := h
      subst hu
      rw [← hrepo]
  · intro st id repo' h
    unfold deleteUser at h
    cases hidx : findIndex (matchesId id) st.users with
    | none => rw [hidx] at h; cases h
    | some ix =>
      rw [hidx] at h
      simp only [Prod.mk.injEq] at h
      exact ⟨st.users.getD ix [], by rw [← h.2]⟩

/-- Witness for C7: a full log of 1000 entries trimmed back to 1000 after an
append, and the small-log implication at a concrete input. -/
theorem auditLog_bounded_witness :
    (logUserAction (List.replicate 1000 (auditEntry "A" 1 [] env0))
        "USER_CREATED" 2 [] env0).length ≤ 1000 ∧
    ((List.replicate 5 (auditEntry "A" 1 [] env0)).length + 1 ≤ 1000 →
      logUserAction (List.replicate 5 (auditEntry "A" 1 [] env0))
          "USER_CREATED" 2 [] env0 =
        List.replicate 5 (auditEntry "A" 1 [] env0)
          ++ [auditEntry "USER_CREATED" 2 [] env0]) :=
  ⟨(auditLog_bounded (List.replicate 1000 (auditEntry "A" 1 [] env0))
      "USER_CREATED" 2 [] env0).1,
   (auditLog_bounded (List.replicate 5 (auditEntry "A" 1 [] env0))
      "USER_CREATED" 2 [] env0).2.2.2.2.1⟩

/-- Every pair placed into the backup's data map carries the value the store
held for its key when the snapshot was taken. -/
theorem backupData_mem (st : Obj) (keys : List String) (acc : Obj)
    (hacc : ∀ kv ∈ acc, oget st kv.1 = some kv.2) :
    ∀ kv ∈ keys.foldl (fun acc k =>
      match oget st k with
      | some v => oset acc k v
      | none => acc) acc, oget st kv.1 = some kv.2 := by
  induction keys generalizing acc with
  | nil => exact hacc
  | cons k0 ks ih =>
    intro kv hkv
    refine ih _ ?_ kv hkv
    intro kv' hkv'
    cases hv : oget st k0 with
    | none =>
      simp only [hv] at hkv'
      exact hacc kv' hkv'
    | some v =>
      simp only [hv] at hkv'
      rcases mem_oset _ _ _ _ hkv' with h' | h'
      · rw [h']; exact hv
      · exact hacc kv' h'

/-- Restoring a data map whose every entry already agrees with `st` leaves
any non-reserved key's value at its `st` value. -/
theorem restore_fold_preserve (st : Obj) (k : String)
    (L : Obj) (b : Obj)
    (hL : ∀ kv ∈ L, oget st kv.1 = some kv.2)
    (hb : oget b k = oget st k) :
    oget (L.foldl (fun acc kv =>
      if kv.1 = BACKUP_KEY then acc else oset acc kv.1 kv.2) b) k
      = oget st k := by
  induction L generalizing b with
  | nil => exact hb
  | cons kv0 L' ih =>
    simp only [List.foldl_cons]
    refine ih _ (fun kv h => hL kv (List.mem_cons_of_mem _ h)) ?_
    by_cases hbk : kv0.1 = BACKUP_KEY
    · rw [if_pos hbk]
      exact hb
    · rw [if_neg hbk]
      by_cases hkk : kv0.1 = k
      · rw [← hkk, oget_oset_self, ← hL kv0 (List.mem_cons_self _ _), hkk]
      · rw [oget_oset_ne _ _ _ _ hkk, hb]

/-- C5: `restoreBackup(createBackup())` round-trip — after restoring the
just-created backup, every key other than the reserved backup key holds
exactly the decoded value it held when the backup was taken. -/
theorem backup_restore_roundTrip (st : Obj) (ts : String) (k : String)
    (hk : k ≠ BACKUP_KEY) :
    oget (restoreBackup (createBackup st ts).2 (createBackup st ts).1).2 k
      = oget st k := by
  simp only [createBackup, restoreBackup]
  refine restore_fold_preserve st k _ _ ?_ ?_
  · exact backupData_mem st STORAGE_KEYS [] (by intro kv h; cases h)
  · exact oget_oset_ne _ _ _ _ (Ne.symm hk)

/-- Witness for C5: a concrete two-key store round-trips on the user
collection key. -/
theorem backup_restore_roundTrip_witness :
    ("studyquality_users" : String) ≠ BACKUP_KEY ∧
    oget (restoreBackup
        (createBackup [("studyquality_users", JVal.arr []),
          ("studyquality_settings", JVal.bool true)] "ts").2
        (createBackup [("studyquality_users", JVal.arr []),
          ("studyquality_settings", JVal.bool true)] "ts").1).2
        "studyquality_users"
      = oget [("studyquality_users", JVal.arr []),
          ("studyquality_settings", JVal.bool true)] "studyquality_users" :=
  ⟨by decide,
   backup_restore_roundTrip
     [("studyquality_users", JVal.arr []),
      ("studyquality_settings", JVal.bool true)]
     "ts" "studyquality_users" (by decide)⟩

/-! ## Sequences of `createUser` calls (claim C1) -/

/-- A sequence of `createUser` calls with no intervening operations: returns
the ids of the returned users (in call order) and the final state. -/
def runCreates (st : RepoState) : List (Obj × Env) → List Int × RepoState
  | [] => ([], st)
  | (d, e) :: rest =>
    let r := createUser st d e
    let rr := runCreates r.2 rest
    (idOf r.1 :: rr.1, rr.2)

theorem oget_eq_none_iff (o : Obj) (k : String) :
    oget o k = none ↔ k ∉ o.map Prod.fst := by
  induction o with
  | nil => simp [oget]
  | cons hd tl ih =>
    obtain ⟨a, b⟩ := hd
    by_cases h : a = k
    · simp [oget, h]
    · have h2 : ¬k = a := fun hh => h hh.symm
      simp [oget, h, h2, ih]

/-- When the caller's data carries no `id` field, the created record's id is
the generated `nextId`. -/
theorem getId_createUser (st : RepoState) (d : Obj) (e : Env)
    (hno : oget d "id" = none) :
    getId (createUser st d e).1 = some st.nextId := by
  unfold createUser getId
  rw [oget_omerge_of_not_mem _ _ _ (by simp),
    oget_omerge_of_not_mem _ _ _ ((oget_eq_none_iff d "id").mp hno)]
  rfl

/-- The invariant the `UserStorage` constructor establishes: every stored
record has a numeric id, and the in-memory counter is
`max(existing ids) + 1` (or 1 on an empty collection). -/
def RepoInv (st : RepoState) : Prop :=
  (∀ u ∈ st.users, (getId u).isSome) ∧ st.nextId = getNextUserId st.users

theorem foldl_max_append (x a : Int) (xs : List Int) :
    (xs ++ [a]).foldl max x = max (xs.foldl max x) a := by
  rw [List.foldl_append, List.foldl_cons, List.foldl_nil]

theorem getNextUserId_append (users : List Obj) (u : Obj)
    (hid : idOf u = getNextUserId users) :
    getNextUserId (users ++ [u]) = getNextUserId users + 1 := by
  cases users with
  | nil =>
    simp only [getNextUserId] at hid
    simp only [List.nil_append, getNextUserId, List.map_nil, List.foldl_nil,
      hid]
  | cons v vs =>
    simp only [getNextUserId] at hid
    simp only [List.cons_append, getNextUserId, List.map_append,
      List.map_cons, List.map_nil, foldl_max_append]
    rw [hid, max_eq_right (by omega)]

/-- `createUser` without a caller-supplied id preserves the invariant,
returns the record whose id is the old `nextId`, and increments the
counter. -/
theorem createUser_inv (st : RepoState) (d : Obj) (e : Env)
    (hinv : RepoInv st) (hno : oget d "id" = none) :
    getId (createUser st d e).1 = some st.nextId ∧
    RepoInv (createUser st d e).2 ∧
    (createUser st d e).2.nextId = st.nextId + 1 := by
  have hid := getId_createUser st d e hno
  have hidof : idOf (createUser st d e).1 = st.nextId := by
    unfold idOf
    rw [hid]
    rfl
  refine ⟨hid, ⟨?_, ?_⟩, rfl⟩
  · intro u hu
    rcases List.mem_append.mp hu with h | h
    · exact hinv.1 u h
    · rw [List.mem_singleton.mp h]
      show (getId (createUser st d e).1).isSome
      rw [hid]
      rfl
  · show st.nextId + 1 = getNextUserId (st.users ++ [(createUser st d e).1])
    rw [getNextUserId_append st.users _ (by rw [hidof, hinv.2]), ← hinv.2]

/-- Under the constructor invariant and id-free call data, a run of
`createUser` calls returns the arithmetic progression starting at `nextId`,
re-establishes the invariant and advances the counter by the number of
calls. -/
theorem runCreates_spec (inputs : List (Obj × Env)) :
    ∀ st : RepoState, RepoInv st →
    (∀ p ∈ inputs, oget p.1 "id" = none) →
    (runCreates st inputs).1
      = (List.range inputs.length).map (fun i : Nat => st.nextId + (i : Int)) ∧
    RepoInv (runCreates st inputs).2 ∧
    (runCreates st inputs).2.nextId = st.nextId + inputs.length := by
  induction inputs with
  | nil =>
    intro st hinv _
    exact ⟨rfl, hinv, by simp [runCreates]⟩
  | cons p rest ih =>
    intro st hinv hno
    obtain ⟨d, e⟩ := p
    obtain ⟨hid, hinv', hnext⟩ :=
      createUser_inv st d e hinv (hno (d, e) (List.mem_cons_self _ _))
    obtain ⟨hids, hinv'', hnext'⟩ := ih (createUser st d e).2 hinv'
      (fun q hq => hno q (List.mem_cons_of_mem _ hq))
    refine ⟨?_, hinv'', ?_⟩
    · show idOf (createUser st d e).1 :: (runCreates (createUser st d e).2 rest).1
        = (List.range (rest.length + 1)).map (fun i : Nat => st.nextId + (i : Int))
      rw [List.range_succ_eq_map, List.map_cons, List.map_map]
      have h1 : idOf (createUser st d e).1 = st.nextId + ((0 : Nat) : Int) := by
        unfold idOf
        rw [hid]
        simp
      rw [h1, hids, hnext]
      refine congrArg _ (List.map_congr_left ?_)
      intro i _
      show st.nextId + 1 + (i : Int) = st.nextId + ((i + 1 : Nat) : Int)
      push_cast
      ring
    · show (runCreates (createUser st d e).2 rest).2.nextId
        = st.nextId + ((rest.length + 1 : Nat) : Int)
      rw [hnext', hnext]
      push_cast
      ring

/-- Counterexample to C1 as stated: on an empty collection (constructor sets
`nextId = 1`), a single `createUser` call whose data supplies `id: 0`
returns a user with id 0, not `1 = getNextUserId []`. -/
theorem createUser_ids_cex :
    (runCreates ⟨[], [], getNextUserId []⟩
        [([("id", JVal.num 0)], env0)]).1 = [0] ∧
    getNextUserId [] = 1 ∧ (0 : Int) ≠ 1 := by
  refine ⟨by decide, by decide, by decide⟩

/-- C1 (amended): if every stored record has a numeric id and no call's data
supplies an `id` field, then along any sequence of `createUser` calls
(started from the constructor-established counter) the returned ids are
strictly increasing, and each equals `getNextUserId` of the collection just
before that call — one more than the maximum stored id, or 1 when empty. -/
theorem createUser_ids_sequential (st : RepoState) (inputs : List (Obj × Env))
    (hwf : ∀ u ∈ st.users, (getId u).isSome)
    (hctor : st.nextId = getNextUserId st.users)
    (hnoid : ∀ p ∈ inputs, oget p.1 "id" = none) :
    List.Pairwise (· < ·) (runCreates st inputs).1 ∧
    ∀ k, k < inputs.length →
      (runCreates st inputs).1.getD k 0 =
        getNextUserId ((runCreates st (inputs.take k)).2).users := by
  obtain ⟨hids, _, _⟩ := runCreates_spec inputs st ⟨hwf, hctor⟩ hnoid
  constructor
  · rw [hids]
    refine List.Pairwise.map _ (fun a b (h : a < b) => ?_)
      (List.pairwise_lt_range inputs.length)
    show st.nextId + (a : Int) < st.nextId + (b : Int)
    omega
  · intro k hk
    obtain ⟨_, hinvk, hnextk⟩ := runCreates_spec (inputs.take k) st ⟨hwf, hctor⟩
      (fun p hp => hnoid p (List.take_subset _ _ hp))
    rw [hids, List.getD_eq_getElem?_getD, List.getElem?_map,
      List.getElem?_range (by simpa using hk)]
    rw [← hinvk.2, hnextk, List.length_take, min_eq_left (le_of_lt hk)]
    rfl

/-- Witness for C1 (amended): two id-free creations on the empty collection
yield the ids 1 and 2, strictly increasing. -/
theorem createUser_ids_sequential_witness :
    List.Pairwise (· < ·) (runCreates ⟨[], [], 1⟩
      [([("name", JVal.str "A")], env0),
       ([("name", JVal.str "B")], env0)]).1 :=
  (createUser_ids_sequential ⟨[], [], 1⟩
    [([("name", JVal.str "A")], env0), ([("name", JVal.str "B")], env0)]
    (fun u hu => absurd hu (List.not_mem_nil u))
    rfl
    (fun p hp => by
      rcases List.mem_cons.mp hp with h | h
      · rw [h]; rfl
      · rw [List.mem_singleton.mp h]; rfl)).1

/-- C10: `createUser` always sets `registeredDate` (the call date),
`lastLogin` (`null`), `createdAt` and `updatedAt` (the call time) itself —
they are spread after the caller's data and win even when the data supplies
them — whereas a caller-supplied `id` overrides the generated sequential id,
because the generated id is spread before the caller's data. -/
theorem createUser_field_precedence (st : RepoState) (userData : Obj)
    (env : Env) (hnd : (userData.map Prod.fst).Nodup) :
    oget (createUser st userData env).1 "registeredDate"
      = some (JVal.str env.today) ∧
    oget (createUser st userData env).1 "lastLogin" = some JVal.null ∧
    oget (createUser st userData env).1 "createdAt"
      = some (JVal.num env.now) ∧
    oget (createUser st userData env).1 "updatedAt"
      = some (JVal.num env.now) ∧
    (∀ v, ("id", v) ∈ userData →
      oget (createUser st userData env).1 "id" = some v) ∧
    (oget userData "id" = none →
      oget (createUser st userData env).1 "id"
        = some (JVal.num st.nextId)) := by
  have htrailnd : (([("registeredDate", JVal.str env.today),
      ("lastLogin", JVal.null), ("createdAt", JVal.num env.now),
      ("updatedAt", JVal.num env.now)] : Obj).map Prod.fst).Nodup := by
    simp
  refine ⟨?_, ?_, ?_, ?_, ?_, ?_⟩
  · exact oget_omerge_of_mem _ _ _ _ htrailnd (by simp)
  · exact oget_omerge_of_mem _ _ _ _ htrailnd (by simp)
  · exact oget_omerge_of_mem _ _ _ _ htrailnd (by simp)
  · exact oget_omerge_of_mem _ _ _ _ htrailnd (by simp)
  · intro v hv
    show oget (omerge (omerge [("id", JVal.num st.nextId)] userData) _) "id"
      = some v
    rw [oget_omerge_of_not_mem _ _ _ (by simp)]
    exact oget_omerge_of_mem _ _ _ _ hnd hv
  · intro hno
    show oget (omerge (omerge [("id", JVal.num st.nextId)] userData) _) "id"
      = some (JVal.num st.nextId)
    rw [oget_omerge_of_not_mem _ _ _ (by simp),
      oget_omerge_of_not_mem _ _ _ ((oget_eq_none_iff userData "id").mp hno)]
    rfl

/-- Witness for C10: data supplying both `id` and `createdAt` — the bogus
`createdAt` is overridden by the call time while the supplied id wins. -/
theorem createUser_field_precedence_witness :
    oget (createUser ⟨[], [], 1⟩
        [("id", JVal.num 42), ("createdAt", JVal.str "bogus"),
         ("name", JVal.str "A")] env0).1 "createdAt"
      = some (JVal.num env0.now) ∧
    oget (createUser ⟨[], [], 1⟩
        [("id", JVal.num 42), ("createdAt", JVal.str "bogus"),
         ("name", JVal.str "A")] env0).1 "id" = some (JVal.num 42) :=
  ⟨(createUser_field_precedence ⟨[], [], 1⟩
      [("id", JVal.num 42), ("createdAt", JVal.str "bogus"),
       ("name", JVal.str "A")] env0 (by simp)).2.2.1,
   (createUser_field_precedence ⟨[], [], 1⟩
      [("id", JVal.num 42), ("createdAt", JVal.str "bogus"),
       ("name", JVal.str "A")] env0 (by simp)).2.2.2.2.1
     (JVal.num 42) (by simp)⟩

/-- Counterexample to C3 as stated: `updateUser` shallow-merges
`partialFields` over the record, so a call whose partial fields name
`createdAt` replaces it — the updated record does not keep the pre-existing
`createdAt`. -/
theorem updateUser_cex :
    oget ((updateUser
        ⟨[[("id", JVal.num 1), ("createdAt", JVal.num 5),
           ("updatedAt", JVal.num 5), ("name", JVal.str "A")]], [], 2⟩
        1 [("createdAt", JVal.num 99)] env0).1.getD []) "createdAt"
      = some (JVal.num 99) ∧
    oget [("id", JVal.num 1), ("createdAt", JVal.num 5),
        ("updatedAt", JVal.num 5), ("name", JVal.str "A")] "createdAt"
      = some (JVal.num 5) ∧
    some (JVal.num 99) ≠ some (JVal.num 5) := by
  refine ⟨rfl, rfl, by simp⟩

/-- C3 (amended): when a user with the id exists, `updateUser` returns and
persists the merged record in place without touching `nextId`; the record
keeps `id` and `createdAt` provided `partialFields` does not name them;
`updatedAt` becomes the call time (hence ≥ the previous `updatedAt` while
the wall clock does not go backwards); every field not named in
`partialFields` other than `updatedAt` keeps its previous value.  When no
user with the id exists, `updateUser` returns `null` and changes nothing. -/
theorem updateUser_spec (st : RepoState) (id : Int) (updates : Obj)
    (env : Env) :
    (findIndex (matchesId id) st.users = none →
      updateUser st id updates env = (none, st)) ∧
    (∀ ix, findIndex (matchesId id) st.users = some ix →
      ∃ u', (updateUser st id updates env).1 = some u' ∧
        (updateUser st id updates env).2.users = st.users.set ix u' ∧
        (updateUser st id updates env).2.nextId = st.nextId ∧
        ("id" ∉ updates.map Prod.fst →
          oget u' "id" = oget (st.users.getD ix []) "id") ∧
        ("createdAt" ∉ updates.map Prod.fst →
          oget u' "createdAt" = oget (st.users.getD ix []) "createdAt") ∧
        oget u' "updatedAt" = some (JVal.num env.now) ∧
        (∀ t0, oget (st.users.getD ix []) "updatedAt" = some (JVal.num t0) →
          t0 ≤ env.now →
          ∃ t1, oget u' "updatedAt" = some (JVal.num t1) ∧ t0 ≤ t1) ∧
        (∀ k, k ∉ updates.map Prod.fst → k ≠ "updatedAt" →
          oget u' k = oget (st.users.getD ix []) k)) := by
  constructor
  · intro h
    unfold updateUser
    rw [h]
  · intro ix hix
    have hup : oget (omerge (omerge (st.users.getD ix []) updates)
        [("updatedAt", JVal.num env.now)]) "updatedAt"
        = some (JVal.num env.now) := by
      rw [omerge_cons, omerge_nil, oget_oset_self]
    refine ⟨omerge (omerge (st.users.getD ix []) updates)
      [("updatedAt", JVal.num env.now)], ?_, ?_, ?_, ?_, ?_, hup, ?_, ?_⟩
    · unfold updateUser
      rw [hix]
    · unfold updateUser
      rw [hix]
    · unfold updateUser
      rw [hix]
    · intro hno
      rw [oget_omerge_of_not_mem _ _ _ (by simp),
        oget_omerge_of_not_mem _ _ _ hno]
    · intro hno
      rw [oget_omerge_of_not_mem _ _ _ (by simp),
        oget_omerge_of_not_mem _ _ _ hno]
    · intro t0 _ hle
      exact ⟨env.now, hup, hle⟩
    · intro k hk hk'
      rw [oget_omerge_of_not_mem _ _ _ (by simpa using hk'),
        oget_omerge_of_not_mem _ _ _ hk]

/-- Witness for C3 (amended): a missing id returns `null` and leaves the
state untouched. -/
theorem updateUser_spec_witness :
    updateUser ⟨[], [], 1⟩ 7 [("name", JVal.str "B")] env0
      = (none, ⟨[], [], 1⟩) :=
  (updateUser_spec ⟨[], [], 1⟩ 7 [("name", JVal.str "B")] env0).1 rfl

/-- Counterexample to C2 as stated: a successful register on an empty
collection creates the user, yet the SessionStore state is untouched — no
session record appears, so the new user does not become the current user
(`API.register` never calls `setCurrentUser`). -/
theorem register_no_session_cex :
    (register stOut
        [("name", JVal.str "N"), ("email", JVal.str "a@b.com"),
         ("password", JVal.str "p")] env0).2.isOk = true ∧
    (register stOut
        [("name", JVal.str "N"), ("email", JVal.str "a@b.com"),
         ("password", JVal.str "p")] env0).1.repo.users.length = 1 ∧
    (register stOut
        [("name", JVal.str "N"), ("email", JVal.str "a@b.com"),
         ("password", JVal.str "p")] env0).1.session = none ∧
    (register stOut
        [("name", JVal.str "N"), ("email", JVal.str "a@b.com"),
         ("password", JVal.str "p")] env0).1.flag = none :=
  ⟨rfl, rfl, rfl, rfl⟩

/-- C2 (amended): when a user with the supplied email already exists
(case-insensitively), register fails with the 409 API error and the whole
state is unchanged; otherwise exactly the new user (data plus
`status: 'active'`) is appended to the collection and returned in a success
envelope.  In both branches the register handler performs no session
operation: the session record and flag record are exactly as before. -/
theorem register_spec (st : SysState) (userData : Obj) (env : Env) :
    (∀ u, getUserByEmail st.repo.users (getStrField userData "email")
        = some u →
      register st userData env
        = (st, Except.error ⟨MSG_USER_EXISTS, 409⟩)) ∧
    (getUserByEmail st.repo.users (getStrField userData "email") = none →
      (register st userData env).1.repo.users
        = st.repo.users ++ [(createUser st.repo
            (omerge userData [("status", JVal.str "active")]) env).1] ∧
      (register st userData env).2
        = Except.ok ⟨true, some MSG_USER_CREATED,
            some (JVal.obj [("user", JVal.obj (createUser st.repo
              (omerge userData [("status", JVal.str "active")]) env).1)])⟩) ∧
    (register st userData env).1.session = st.session ∧
    (register st userData env).1.flag = st.flag := by
  refine ⟨?_, ?_, ?_, ?_⟩
  · intro u h
    unfold register
    dsimp only
    rw [h]
  · intro h
    unfold register
    dsimp only
    rw [h]
    exact ⟨rfl, rfl⟩
  · unfold register
    dsimp only
    cases h : getUserByEmail st.repo.users (getStrField userData "email") <;>
      rfl
  · unfold register
    dsimp only
    cases h : getUserByEmail st.repo.users (getStrField userData "email") <;>
      rfl

/-- Witness for C2 (amended): registering `a@b.com` when `A@B.com` is stored
hits the case-insensitive duplicate check and fails 409 with no changes. -/
theorem register_spec_witness :
    register ⟨⟨[[("id", JVal.num 1), ("email", JVal.str "A@B.com")]], [], 2⟩,
        none, none⟩
      [("name", JVal.str "N"), ("email", JVal.str "a@b.com")] env0
      = (⟨⟨[[("id", JVal.num 1), ("email", JVal.str "A@B.com")]], [], 2⟩,
          none, none⟩,
         Except.error ⟨MSG_USER_EXISTS, 409⟩) :=
  (register_spec ⟨⟨[[("id", JVal.num 1), ("email", JVal.str "A@B.com")]],
      [], 2⟩, none, none⟩
    [("name", JVal.str "N"), ("email", JVal.str "a@b.com")] env0).1
    [("id", JVal.num 1), ("email", JVal.str "A@B.com")] rfl

/-! ## Line structure of the CSV export (claim C6) -/

/-- The lines of a string: split its characters at `'\n'`. -/
def linesOf (s : String) : List String :=
  (splitOnChar '\n' s.data).map String.mk

theorem splitOnChar_ne_nil (sep : Char) (cs : List Char) :
    splitOnChar sep cs ≠ [] := by
  cases cs with
  | nil => simp [splitOnChar]
  | cons c cs =>
    simp only [splitOnChar]
    cases h : splitOnChar sep cs with
    | nil => simp
    | cons l ls => by_cases hc : c = sep <;> simp [hc]

theorem splitOnChar_no_sep (sep : Char) (cs : List Char) (h : sep ∉ cs) :
    splitOnChar sep cs = [cs] := by
  induction cs with
  | nil => rfl
  | cons c cs ih =>
    simp only [List.mem_cons] at h
    push_neg at h
    simp only [splitOnChar, ih h.2]
    rw [if_neg (fun hc => h.1 hc.symm)]

theorem splitOnChar_append (sep : Char) (xs ys : List Char) (h : sep ∉ xs) :
    splitOnChar sep (xs ++ sep :: ys) = xs :: splitOnChar sep ys := by
  induction xs with
  | nil =>
    simp only [List.nil_append, splitOnChar]
    cases hy : splitOnChar sep ys with
    | nil => exact absurd hy (splitOnChar_ne_nil sep ys)
    | cons l ls => simp
  | cons c xs ih =>
    simp only [List.mem_cons] at h
    push_neg at h
    have h2 : ¬c = sep := fun hc => h.1 hc.symm
    simp only [List.cons_append, List.append_eq, splitOnChar, ih h.2, h2,
      if_false]

theorem splitOnChar_joinSep (pieces : List String) (hne : pieces ≠ [])
    (h : ∀ p ∈ pieces, '\n' ∉ p.data) :
    splitOnChar '\n' (joinSep "\n" pieces).data = pieces.map String.data := by
  induction pieces with
  | nil => exact absurd rfl hne
  | cons x rest ih =>
    cases rest with
    | nil =>
      show splitOnChar '\n' x.data = [x.data]
      exact splitOnChar_no_sep _ _ (h x (List.mem_cons_self _ _))
    | cons y rest' =>
      have hx : '\n' ∉ x.data := h x (List.mem_cons_self _ _)
      have hd : (x ++ "\n" ++ joinSep "\n" (y :: rest')).data
          = x.data ++ '\n' :: (joinSep "\n" (y :: rest')).data := by
        rw [String.data_append, String.data_append,
          show ("\n" : String).data = ['\n'] from rfl, List.append_assoc]
        rfl
      show splitOnChar '\n' (x ++ "\n" ++ joinSep "\n" (y :: rest')).data = _
      rw [hd, splitOnChar_append _ _ _ hx,
        ih (by simp) (fun p hp => h p (List.mem_cons_of_mem _ hp))]
      rfl

theorem mem_escQuoteC (c : Char) (cs : List Char) (h : c ∈ escQuoteC cs) :
    c ∈ cs ∨ c = '"' := by
  induction cs with
  | nil => cases h
  | cons d ds ih =>
    by_cases hd : d = '"'
    · rw [escQuoteC, if_pos hd] at h
      rcases List.mem_cons.mp h with h1 | h1
      · exact Or.inr h1
      · rcases List.mem_cons.mp h1 with h2 | h2
        · exact Or.inr h2
        · rcases ih h2 with h3 | h3
          · exact Or.inl (List.mem_cons_of_mem _ h3)
          · exact Or.inr h3
    · rw [escQuoteC, if_neg hd] at h
      rcases List.mem_cons.mp h with h1 | h1
      · exact Or.inl (h1 ▸ List.mem_cons_self _ _)
      · rcases ih h1 with h3 | h3
        · exact Or.inl (List.mem_cons_of_mem _ h3)
        · exact Or.inr h3

theorem csvCell_no_newline (u : Obj) (hd : String)
    (h : '\n' ∉ (jsStrProp (oget u hd)).data) :
    '\n' ∉ (csvCell u hd).data := by
  unfold csvCell escQuote
  intro hmem
  rw [String.data_append, String.data_append] at hmem
  rcases List.mem_append.mp hmem with hm | hm
  · rcases List.mem_append.mp hm with hm' | hm'
    · simp [show ("\"" : String).data = ['"'] from rfl] at hm'
    · rcases mem_escQuoteC _ _ hm' with h2 | h2
      · exact h h2
      · exact absurd h2 (by decide)
  · simp [show ("\"" : String).data = ['"'] from rfl] at hm

theorem joinSep_no_newline (sep : String) (hsep : '\n' ∉ sep.data)
    (l : List String) (h : ∀ p ∈ l, '\n' ∉ p.data) :
    '\n' ∉ (joinSep sep l).data := by
  induction l with
  | nil => simp [joinSep]
  | cons x rest ih =>
    cases rest with
    | nil => exact h x (List.mem_cons_self _ _)
    | cons y rest' =>
      show '\n' ∉ (x ++ sep ++ joinSep sep (y :: rest')).data
      intro hmem
      rw [String.data_append, String.data_append] at hmem
      rcases List.mem_append.mp hmem with hm | hm
      · rcases List.mem_append.mp hm with hm' | hm'
        · exact h x (List.mem_cons_self _ _) hm'
        · exact hsep hm'
      · exact ih (fun p hp => h p (List.mem_cons_of_mem _ hp)) hm

theorem oget_backup_fold (st : Obj) (k : String) (keys : List String) :
    ∀ acc : Obj, oget (keys.foldl (fun acc k' =>
      match oget st k' with
      | some v => oset acc k' v
      | none => acc) acc) k
      = if k ∈ keys ∧ (oget st k).isSome then oget st k else oget acc k := by
  induction keys with
  | nil => intro acc; simp
  | cons k0 ks ih =>
    intro acc
    rw [List.foldl_cons, ih]
    by_cases hks : k ∈ ks ∧ (oget st k).isSome
    · rw [if_pos hks, if_pos ⟨List.mem_cons_of_mem _ hks.1, hks.2⟩]
    · rw [if_neg hks]
      by_cases hk0 : k = k0
      · subst hk0
        cases hv : oget st k with
        | some v =>
          rw [if_pos ⟨List.mem_cons_self _ _, rfl⟩]
          show oget (oset acc k v) k = some v
          exact oget_oset_self acc k v
        | none =>
          rw [if_neg (by simp)]
      · have hcond : ¬(k ∈ k0 :: ks ∧ (oget st k).isSome) := by
          intro hc
          rcases List.mem_cons.mp hc.1 with h | h
          · exact hk0 h
          · exact hks ⟨h, hc.2⟩
        rw [if_neg hcond]
        cases hv : oget st k0 with
        | some v =>
          show oget (oset acc k0 v) k = oget acc k
          exact oget_oset_ne acc k0 k v (fun hh => hk0 hh.symm)
        | none => rfl

/-- The CSV branch of `exportData` renders exactly the currently stored user
collection: taking the backup does not disturb it. -/
theorem exportDataCsv_eq (st : Obj) (ts : String) :
    exportDataCsv st ts
      = convertToCSV (decodeUserArr (oget st USER_DATA_KEY)) := by
  unfold exportDataCsv createBackup
  dsimp only
  rw [oget_backup_fold]
  by_cases hs : (oget st USER_DATA_KEY).isSome
  · rw [if_pos ⟨by decide, hs⟩]
  · rw [if_neg (fun hc => hs hc.2)]
    cases hv : oget st USER_DATA_KEY with
    | none => rfl
    | some v => rw [hv] at hs; exact absurd rfl hs

/-- C6: CSV export of the empty collection is the empty string, and of
`N ≥ 1` users is exactly `N + 1` newline-separated lines — the header line
joining the first record's field names, then one line per user whose every
value is the quoted, quote-doubled cell `csvCell` — provided no header or
rendered value contains a newline itself.  `exportData('csv')` renders the
stored user collection this way. -/
theorem convertToCSV_spec :
    convertToCSV [] = "" ∧
    (∀ (st : Obj) (ts : String),
      exportDataCsv st ts
        = convertToCSV (decodeUserArr (oget st USER_DATA_KEY))) ∧
    (∀ (u0 : Obj) (rest : List Obj),
      (∀ hd ∈ u0.map Prod.fst, '\n' ∉ hd.data) →
      (∀ u ∈ u0 :: rest, ∀ hd ∈ u0.map Prod.fst,
        '\n' ∉ (jsStrProp (oget u hd)).data) →
      linesOf (convertToCSV (u0 :: rest))
        = joinSep "," (u0.map Prod.fst)
          :: (u0 :: rest).map (fun u =>
              joinSep "," ((u0.map Prod.fst).map (csvCell u))) ∧
      (linesOf (convertToCSV (u0 :: rest))).length
        = (u0 :: rest).length + 1) := by
  refine ⟨rfl, exportDataCsv_eq, ?_⟩
  intro u0 rest hh hv
  have hpieces : ∀ p ∈ joinSep "," (u0.map Prod.fst)
      :: (u0 :: rest).map (fun u =>
          joinSep "," ((u0.map Prod.fst).map (csvCell u))),
      '\n' ∉ p.data := by
    intro p hp
    rcases List.mem_cons.mp hp with h1 | h1
    · rw [h1]
      exact joinSep_no_newline _ (by decide) _ hh
    · obtain ⟨u, hu, hpu⟩ := List.mem_map.mp h1
      rw [← hpu]
      refine joinSep_no_newline _ (by decide) _ ?_
      intro cell hcell
      obtain ⟨hd, hhd, hcd⟩ := List.mem_map.mp hcell
      rw [← hcd]
      exact csvCell_no_newline u hd (hv u hu hd hhd)
  have hsplit := splitOnChar_joinSep _ (by simp) hpieces
  have hmain : linesOf (convertToCSV (u0 :: rest))
      = joinSep "," (u0.map Prod.fst)
        :: (u0 :: rest).map (fun u =>
            joinSep "," ((u0.map Prod.fst).map (csvCell u))) := by
    show (splitOnChar '\n' (joinSep "\n" _).data).map String.mk = _
    rw [hsplit, List.map_map,
      show (String.mk ∘ String.data) = id from funext (fun s => rfl),
      List.map_id]
  exact ⟨hmain, by rw [hmain]; simp⟩

/-- Witness for C6: one record with an embedded quote yields two lines. -/
theorem convertToCSV_spec_witness :
    (linesOf (convertToCSV
        [[("id", JVal.num 1), ("name", JVal.str "Jo\"e")]])).length = 2 :=
  (convertToCSV_spec.2.2 [("id", JVal.num 1), ("name", JVal.str "Jo\"e")] []
    (by decide) (by decide)).2

/-! ## The timeline meaning of date comparisons (claim C8)

`getUserStats` compares JS `Date` objects, i.e. millisecond time values.
To state what `recentRegistrations` counts on the real timeline, normalized
civil datetimes are mapped to epoch milliseconds (proleptic Gregorian,
positive years) and the lexicographic order `dtLt` is proved to agree with
the timeline order on valid dates. -/

/-- A normalized, representable civil datetime (positive year). -/
def ValidDT (d : DateTime) : Prop :=
  1 ≤ d.year ∧ 1 ≤ d.month ∧ d.month ≤ 12 ∧ 1 ≤ d.day ∧
  d.day ≤ daysInMonth d.year d.month ∧ 0 ≤ d.ms ∧ d.ms < 86400000

/-- Leap years in `1..y`. -/
def leaps (y : Int) : Int := y / 4 - y / 100 + y / 400

/-- Days of year `y` strictly before month `m` (1-based). -/
def daysBeforeMonth (y : Int) : Nat → Int
  | 0 => 0
  | m + 1 => daysBeforeMonth y m + (if m = 0 then 0 else daysInMonth y (m : Int))

/-- Days since 0001-01-01 (day 0). -/
def epochDays (d : DateTime) : Int :=
  365 * (d.year - 1) + leaps (d.year - 1)
    + daysBeforeMonth d.year d.month.toNat + (d.day - 1)

/-- The millisecond time value of a civil datetime. -/
def epochMs (d : DateTime) : Int := epochDays d * 86400000 + d.ms

theorem daysInMonth_bounds (y m : Int) :
    28 ≤ daysInMonth y m ∧ daysInMonth y m ≤ 31 := by
  unfold daysInMonth
  split_ifs <;> norm_num

theorem daysBeforeMonth_succ (y : Int) (m : Nat) (h : 1 ≤ m) :
    daysBeforeMonth y (m + 1) = daysBeforeMonth y m + daysInMonth y (m : Int) := by
  show daysBeforeMonth y m + (if m = 0 then 0 else daysInMonth y (m : Int)) = _
  rw [if_neg (by omega)]

theorem daysBeforeMonth_mono (y : Int) (m m' : Nat) (h : m ≤ m') :
    daysBeforeMonth y m ≤ daysBeforeMonth y m' := by
  induction m' with
  | zero => rw [Nat.le_zero.mp h]
  | succ n ih =>
    rcases Nat.lt_or_ge m (n + 1) with h1 | h1
    · refine le_trans (ih (by omega)) ?_
      show daysBeforeMonth y n
        ≤ daysBeforeMonth y n + (if n = 0 then 0 else daysInMonth y (n : Int))
      have := daysInMonth_bounds y (n : Int)
      split_ifs <;> omega
    · rw [Nat.le_antisymm h h1]

theorem daysBeforeMonth_total (y : Int) :
    daysBeforeMonth y 13 = 365 + (if isLeapYear y then 1 else 0) := by
  by_cases h : isLeapYear y <;>
    norm_num [daysBeforeMonth, daysInMonth, h]

theorem leaps_step (y : Int) :
    leaps y = leaps (y - 1) + (if isLeapYear y then 1 else 0) := by
  by_cases h4 : y % 4 = 0 <;> by_cases h100 : y % 100 = 0 <;>
    by_cases h400 : y % 400 = 0 <;>
      simp only [leaps, isLeapYear, h4, h100, h400] <;>
        norm_num <;> omega

theorem dtLt_iff (a b : DateTime) : dtLt a b = true ↔
    (a.year < b.year ∨ (a.year = b.year ∧ (a.month < b.month ∨
      (a.month = b.month ∧ (a.day < b.day ∨
        (a.day = b.day ∧ a.ms < b.ms)))))) := by
  unfold dtLt
  split_ifs <;> simp [decide_eq_true_iff] <;> omega

/-- The day offset of a valid date lies inside its year. -/
theorem dayOffset_bounds (d : DateTime) (hd : ValidDT d) :
    0 ≤ daysBeforeMonth d.year d.month.toNat + (d.day - 1) ∧
    daysBeforeMonth d.year d.month.toNat + (d.day - 1)
      < 365 + (if isLeapYear d.year then 1 else 0) := by
  obtain ⟨hy, hm1, hm2, hd1, hd2, hms1, hms2⟩ := hd
  have hmn : d.month = (d.month.toNat : Int) :=
    (Int.toNat_of_nonneg (by omega)).symm
  have h0 : daysBeforeMonth d.year 0 = 0 := rfl
  have hmono0 := daysBeforeMonth_mono d.year 0 d.month.toNat (Nat.zero_le _)
  have hstep := daysBeforeMonth_succ d.year d.month.toNat (by omega)
  have hmono := daysBeforeMonth_mono d.year (d.month.toNat + 1) 13 (by omega)
  have htot := daysBeforeMonth_total d.year
  rw [← hmn] at hstep
  generalize (if isLeapYear d.year then (1 : Int) else 0) = L at htot ⊢
  omega

/-- Stepping at least one whole year forward on the day count. -/
theorem epochDays_year_mono (y y' : Int) (h : y < y') :
    365 * (y - 1) + leaps (y - 1) + 365 + (if isLeapYear y then 1 else 0)
      ≤ 365 * (y' - 1) + leaps (y' - 1) := by
  have hL : ∀ z : Int, 0 ≤ (if isLeapYear z then (1 : Int) else 0) := by
    intro z
    split_ifs <;> norm_num
  refine @Int.le_induction
    (fun n => 365 * (y - 1) + leaps (y - 1) + 365
      + (if isLeapYear y then 1 else 0) ≤ 365 * (n - 1) + leaps (n - 1))
    (y + 1) ?_ ?_ y' h
  · have := leaps_step y
    generalize (if isLeapYear y then (1 : Int) else 0) = L at this ⊢
    simp only [add_sub_cancel_right]
    omega
  · intro n hn ih
    have hs := leaps_step n
    have h1 := hL n
    generalize (if isLeapYear y then (1 : Int) else 0) = L at ih ⊢
    generalize (if isLeapYear n then (1 : Int) else 0) = L2 at hs h1
    simp only [add_sub_cancel_right] at *
    omega

/-- On valid dates, the lexicographic civil order implies the timeline
order. -/
theorem epochMs_lt_of_dtLt (a b : DateTime) (ha : ValidDT a) (hb : ValidDT b)
    (h : dtLt a b = true) : epochMs a < epochMs b := by
  have haY := ha.1
  have hbY := hb.1
  have hA := dayOffset_bounds a ha
  have hB := dayOffset_bounds b hb
  have hamn : a.month = (a.month.toNat : Int) :=
    (Int.toNat_of_nonneg (by have := ha.2.1; omega)).symm
  have hbmn : b.month = (b.month.toNat : Int) :=
    (Int.toNat_of_nonneg (by have := hb.2.1; omega)).symm
  have haMs := ha.2.2.2.2.2
  have hbMs := hb.2.2.2.2.2
  rcases (dtLt_iff a b).mp h with hy | ⟨hy, hm | ⟨hm, hd | ⟨hd, hms⟩⟩⟩
  · -- strictly earlier year
    have hmono := epochDays_year_mono a.year b.year hy
    unfold epochMs epochDays
    generalize (if isLeapYear a.year then (1 : Int) else 0) = LA at hA hmono
    generalize (if isLeapYear b.year then (1 : Int) else 0) = LB at hB
    omega
  · -- same year, strictly earlier month
    have hstepA := daysBeforeMonth_succ a.year a.month.toNat
      (by have := ha.2.1; omega)
    rw [← hamn] at hstepA
    have hmonoAB := daysBeforeMonth_mono a.year (a.month.toNat + 1)
      b.month.toNat (by omega)
    have hdayA := ha.2.2.2.2.1
    have hdayB := hb.2.2.2.1
    unfold epochMs epochDays
    rw [← hy]
    omega
  · -- same year and month, strictly earlier day
    have hmn : a.month.toNat = b.month.toNat := by rw [hm]
    unfold epochMs epochDays
    rw [← hy, ← hmn]
    omega
  · -- same calendar day, strictly earlier time of day
    have hmn : a.month.toNat = b.month.toNat := by rw [hm]
    unfold epochMs epochDays
    rw [← hy, ← hmn, ← hd]
    omega

/-- On valid dates `dtLt` is exactly the strict timeline order. -/
theorem dtLt_eq_decide_epochMs (a b : DateTime) (ha : ValidDT a)
    (hb : ValidDT b) : dtLt a b = decide (epochMs a < epochMs b) := by
  cases hlt : dtLt a b with
  | true =>
    have := epochMs_lt_of_dtLt a b ha hb hlt
    simp [this]
  | false =>
    by_cases hba : dtLt b a = true
    · have := epochMs_lt_of_dtLt b a hb ha hba
      simp
      omega
    · have hn1 : ¬(a.year < b.year ∨ (a.year = b.year ∧ (a.month < b.month ∨
          (a.month = b.month ∧ (a.day < b.day ∨
            (a.day = b.day ∧ a.ms < b.ms)))))) := by
        intro hr
        rw [(dtLt_iff a b).mpr hr] at hlt
        cases hlt
      have hn2 : ¬(b.year < a.year ∨ (b.year = a.year ∧ (b.month < a.month ∨
          (b.month = a.month ∧ (b.day < a.day ∨
            (b.day = a.day ∧ b.ms < a.ms)))))) := by
        intro hr
        exact hba ((dtLt_iff b a).mpr hr)
      have hcomp : a.year = b.year ∧ a.month = b.month ∧ a.day = b.day ∧
          a.ms = b.ms := by omega
      have heq : epochMs a = epochMs b := by
        obtain ⟨e1, e2, e3, e4⟩ := hcomp
        unfold epochMs epochDays
        rw [e1, e2, e3, e4]
      simp
      omega

/-- `setMonth`'s normalization yields a valid civil date again (for years
past 1, so the January borrow stays representable). -/
theorem monthAgo_valid (d : DateTime) (hd : ValidDT d) (hy2 : 2 ≤ d.year) :
    ValidDT (monthAgo d) := by
  obtain ⟨h1, h2, h3, h4, h5, h6, h7⟩ := hd
  by_cases hm : d.month - 1 < 1
  · -- January: borrow a year and land in December (31 days ≥ any day)
    have hmeq : d.month = 1 := by omega
    have h5' : d.day ≤ 31 := by
      rw [hmeq] at h5
      simpa [daysInMonth] using h5
    have hval : monthAgo d = ⟨d.year - 1, 12, d.day, d.ms⟩ := by
      unfold monthAgo
      rw [hmeq]
      norm_num [daysInMonth]
      omega
    rw [hval]
    unfold ValidDT
    dsimp only
    refine ⟨by omega, by norm_num, by norm_num, h4, ?_, h6, h7⟩
    simpa [daysInMonth] using h5'
  · by_cases hc : d.day > daysInMonth d.year (d.month - 1)
    · -- later month: the day overflow carries back into the current month
      have hno : ¬(d.month - 1 + 1 > 12) := by omega
      have hval : monthAgo d
          = ⟨d.year, d.month, d.day - daysInMonth d.year (d.month - 1), d.ms⟩ := by
        unfold monthAgo
        rw [if_neg hm, if_neg hm, if_pos hc, if_neg hno, if_neg hno]
        have heq : d.month - 1 + 1 = d.month := by omega
        rw [heq]
      rw [hval]
      unfold ValidDT
      dsimp only
      have hb1 := daysInMonth_bounds d.year (d.month - 1)
      have hb2 := daysInMonth_bounds d.year d.month
      exact ⟨by omega, h2, h3, by omega, by omega, h6, h7⟩
    · -- later month, no overflow
      have hval : monthAgo d = ⟨d.year, d.month - 1, d.day, d.ms⟩ := by
        unfold monthAgo
        rw [if_neg hm, if_neg hm, if_neg hc]
      rw [hval]
      unfold ValidDT
      dsimp only
      exact ⟨by omega, by omega, by omega, h4, by omega, h6, h7⟩

/-- A parsed registration date is a valid civil datetime (given a positive
year). -/
theorem parseRegDate_valid (s : String) (rd : DateTime)
    (h : parseRegDate s = some rd) (hy : 1 ≤ rd.year) : ValidDT rd := by
  unfold parseRegDate at h
  split at h
  · split at h
    · split at h
      · obtain rfl := Option.some.inj h
        rename_i y mo dd _ _ _ hcond
        exact ⟨hy, hcond.1, hcond.2.1, hcond.2.2.1, hcond.2.2.2,
          by norm_num, by norm_num⟩
      · cases h
    · cases h
  · cases h

/-- Counterexample to C8 as stated: called at 2024-03-30 12:00, the code's
`setMonth(-1)` boundary normalizes 2024-02-30 to 2024-03-01 12:00, so a user
registered on 2024-03-01 — only 29.5 days before the call, squarely inside
the trailing 30 days — is not counted: `recentRegistrations` is 0 while the
trailing-30-days count is 1. -/
theorem recentRegistrations_cex :
    (getUserStats [[("registeredDate", JVal.str "2024-03-01")]]
        dt0).recentRegistrations = 0 ∧
    ([[("registeredDate", JVal.str "2024-03-01")]].filter (fun u =>
        match parseRegDate (getStrField u "registeredDate") with
        | some rd => decide (0 ≤ epochMs dt0 - epochMs rd ∧
            epochMs dt0 - epochMs rd ≤ 30 * 86400000)
        | none => false)).length = 1 :=
  ⟨by decide, by decide⟩

/-- C8 (amended): `recentRegistrations` counts exactly those users whose
`registeredDate` parses to a date strictly later on the millisecond timeline
than the instant exactly one calendar month before the call (the JS
`setMonth(getMonth() - 1)` normalization of the call instant) — which is not
in general the trailing-30-days window. -/
theorem recentRegistrations_spec (users : List Obj) (now : DateTime)
    (hnow : ValidDT now) (hy2 : 2 ≤ now.year)
    (hyears : ∀ u ∈ users, ∀ rd,
      parseRegDate (getStrField u "registeredDate") = some rd →
        1 ≤ rd.year) :
    (getUserStats users now).recentRegistrations
      = (users.filter (fun u =>
          match parseRegDate (getStrField u "registeredDate") with
          | some rd => decide (epochMs (monthAgo now) < epochMs rd)
          | none => false)).length := by
  unfold getUserStats
  dsimp only
  refine congrArg List.length (List.filter_congr ?_)
  intro u hu
  cases hp : parseRegDate (getStrField u "registeredDate") with
  | none => rfl
  | some rd =>
    exact dtLt_eq_decide_epochMs (monthAgo now) rd
      (monthAgo_valid now hnow hy2)
      (parseRegDate_valid _ _ hp (hyears u hu rd hp))

/-- Witness for C8 (amended): one user registered 2024-02-10, called at
2024-03-30 12:00 — both sides agree. -/
theorem recentRegistrations_spec_witness :
    (getUserStats [[("registeredDate", JVal.str "2024-02-10")]]
        dt0).recentRegistrations
      = ([[("registeredDate", JVal.str "2024-02-10")]].filter (fun u =>
          match parseRegDate (getStrField u "registeredDate") with
          | some rd => decide (epochMs (monthAgo dt0) < epochMs rd)
          | none => false)).length :=
  recentRegistrations_spec [[("registeredDate", JVal.str "2024-02-10")]] dt0
    (by unfold ValidDT; decide) (by decide)
    (fun u hu rd hp => by
      rw [List.mem_singleton.mp hu] at hp
      have h2 : (some (⟨2024, 2, 10, 0⟩ : DateTime) : Option DateTime)
          = some rd := hp
      rw [← Option.some.inj h2]
      decide)

end StudyQuality
